import Mathlib

/-!
Verification of the invocation-response codec and event-loop contracts of the
VoltDB C++ client library.

The development shallowly embeds `src/include/InvocationResponse.hpp` (the
`StatusCode` enum, the `InvocationResponse` class with its three constructors,
its accessors and its stream serialization) together with the byte-buffer
codec it consumes.  `ByteBuffer.hpp`, `Table.h` and the `ClientImpl` behind
`src/include/Client.h` are not part of the source slice; the definitions that
stand in for them are modelled from the specification and carry doc comments
saying so.

Machine integers are modelled as `Int` with explicit wrap-around (`emod` by
the relevant power of two); byte sequences are `List Nat` with each byte in
`[0, 256)`; fallible reads return `Option`.
-/

namespace voltdb

/-- Big-endian value of a byte list (head is the most significant byte). -/
def beToNat (bs : List Nat) : Nat := bs.foldl (fun a c => a * 256 + c) 0

/-- The `w`-byte big-endian encoding of `n % 256^w`. -/
def natToBE : Nat → Nat → List Nat
  | 0, _ => []
  | w + 1, n => natToBE w (n / 256) ++ [n % 256]

/-- Little-endian value of a byte list (head is the least significant byte). -/
def leToNat : List Nat → Nat
  | [] => 0
  | b :: bs => b + 256 * leToNat bs

/-- The `w`-byte little-endian encoding of `n % 256^w`. -/
def natToLE : Nat → Nat → List Nat
  | 0, _ => []
  | w + 1, n => n % 256 :: natToLE w (n / 256)

/-- Two's-complement reinterpretation of an unsigned value `v < full` where
`full = 2 * half` is the size of the machine-integer domain. -/
def toSignedW (half full : Nat) (v : Nat) : Int :=
  if v < half then (v : Int) else (v : Int) - (full : Int)

/-- The `w`-byte big-endian wire encoding of the signed integer `v`,
wrapping modulo `256^w`. -/
def encInt (w : Nat) (v : Int) : List Nat :=
  natToBE w ((v % ((256 : Int) ^ w)).toNat)

/-- Bit `k` of the low byte of an `int8` value, as tested by
`(presentFields & (1 << k)) != 0` in the parser. -/
def int8Bit (x : Int) (k : Nat) : Bool := ((x % 256).toNat).testBit k

/-- Modelled from the spec: `ByteBuffer.hpp` is not under `src/`.  §4.1: a
buffer holds a byte region, a `position` cursor and a `limit`; reads advance
`position` and fail with `Overrun` (here `none`) if they would cross `limit`.
The byte region of a `SharedByteBuffer (data, length)` is exactly the `length`
bytes of `data`, so the capacity of the modelled buffer is `data.length`. -/
structure SharedByteBuffer where
  data : List Nat
  pos : Nat
  lim : Nat
deriving Repr, DecidableEq

namespace SharedByteBuffer

/-- Modelled from the spec (§4.1): consume `n` raw bytes at `position`,
failing with `Overrun` when the read would cross `limit`. -/
def readBytes (b : SharedByteBuffer) (n : Nat) : Option (List Nat × SharedByteBuffer) :=
  if b.pos + n ≤ b.lim then
    some ((b.data.drop b.pos).take n, { b with pos := b.pos + n })
  else none

/-- Modelled from the spec (§4.1): read a `w`-byte big-endian unsigned value. -/
def getUInt (b : SharedByteBuffer) (w : Nat) : Option (Nat × SharedByteBuffer) :=
  match b.readBytes w with
  | some (bs, b2) => some (beToNat bs, b2)
  | none => none

/-- Modelled from the spec (§4.1): big-endian signed 8-bit read. -/
def getInt8 (b : SharedByteBuffer) : Option (Int × SharedByteBuffer) :=
  match b.getUInt 1 with
  | some (v, b2) => some (toSignedW 128 256 v, b2)
  | none => none

/-- Modelled from the spec (§4.1): big-endian signed 16-bit read. -/
def getInt16 (b : SharedByteBuffer) : Option (Int × SharedByteBuffer) :=
  match b.getUInt 2 with
  | some (v, b2) => some (toSignedW 32768 65536 v, b2)
  | none => none

/-- Modelled from the spec (§4.1): big-endian signed 32-bit read. -/
def getInt32 (b : SharedByteBuffer) : Option (Int × SharedByteBuffer) :=
  match b.getUInt 4 with
  | some (v, b2) => some (toSignedW 2147483648 4294967296 v, b2)
  | none => none

/-- Modelled from the spec (§4.1): big-endian signed 64-bit read. -/
def getInt64 (b : SharedByteBuffer) : Option (Int × SharedByteBuffer) :=
  match b.getUInt 8 with
  | some (v, b2) => some (toSignedW 9223372036854775808 18446744073709551616 v, b2)
  | none => none

/-- Modelled from the spec (§4.1): a string is a 4-byte signed length, with
`-1` signalling null (reported through the `wasNull` flag, second component),
followed by that many bytes of UTF-8 payload. -/
def getString (b : SharedByteBuffer) : Option ((List Nat × Bool) × SharedByteBuffer) :=
  match b.getInt32 with
  | none => none
  | some (len, b2) =>
    if len = -1 then some (([], true), b2)
    else if len < 0 then none
    else
      match b2.readBytes len.toNat with
      | some (s, b3) => some ((s, false), b3)
      | none => none

/-- Modelled from the spec (§4.1): move the `position` cursor; the new
position must stay within `[0, limit]`. -/
def setPosition (b : SharedByteBuffer) (p : Int) : Option SharedByteBuffer :=
  if 0 ≤ p ∧ p ≤ (b.lim : Int) then some { b with pos := p.toNat } else none

/-- Modelled from the spec (§4.1): move the `limit`; the new limit must stay
within the capacity of the byte region. -/
def setLimit (b : SharedByteBuffer) (l : Int) : Option SharedByteBuffer :=
  if 0 ≤ l ∧ l ≤ (b.data.length : Int) then some { b with lim := l.toNat } else none

/-- Modelled from the spec (§4.1 and §4.2): `slice()` yields a view sharing
the underlying storage from the current `position` to `limit`, consuming
those bytes (the codec consumes a table via a slice of exactly its length). -/
def slice (b : SharedByteBuffer) : List Nat × SharedByteBuffer :=
  ((b.data.drop b.pos).take (b.lim - b.pos), { b with pos := b.lim })

end SharedByteBuffer

/-- Modelled from the spec: `Table.h` is not under `src/`.  §1/§3: the core
treats a result table as an opaque slice of bytes whose parsing is
delegated; the table is constructed from a buffer slice and keeps it. -/
structure Table where
  bytes : List Nat
deriving Repr, DecidableEq

/-- `StatusCode`: returned when a procedure executes without aborting. -/
def STATUS_CODE_SUCCESS : Int := 1

/-- `StatusCode`: returned when a procedure throws a VoltAbortException. -/
def STATUS_CODE_USER_ABORT : Int := -1

/-- `StatusCode`: returned when a procedure fails due to something like a
constraint violation. -/
def STATUS_CODE_GRACEFUL_FAILURE : Int := -2

/-- `StatusCode`: returned when a procedure invocation fails. -/
def STATUS_CODE_UNEXPECTED_FAILURE : Int := -3

/-- `StatusCode`: returned by the API when the connection to the server that
a request was sent to is lost. -/
def STATUS_CODE_CONNECTION_LOST : Int := -4

/-- The decoded view over a server response buffer: the member fields of
`InvocationResponse` in `src/include/InvocationResponse.hpp`. -/
structure InvocationResponse where
  m_clientData : Int
  m_statusCode : Int
  m_statusString : List Nat
  m_appStatusCode : Int
  m_appStatusString : List Nat
  m_clusterRoundTripTime : Int
  m_results : List Table
deriving Repr, DecidableEq

/-- The byte sequence of an ASCII string literal. -/
def strBytes (s : String) : List Nat := s.toList.map Char.toNat

namespace InvocationResponse

/-- The default constructor `InvocationResponse()`: an error response
indicating the connection to the database was lost. -/
def mkDefault : InvocationResponse :=
  { m_clientData := 0
    m_statusCode := STATUS_CODE_CONNECTION_LOST
    m_statusString := strBytes "Connection to the database was lost"
    m_appStatusCode := -128
    m_appStatusString := []
    m_clusterRoundTripTime := 0
    m_results := [] }

/-- Accessor `clientData()`. -/
def clientData (r : InvocationResponse) : Int := r.m_clientData

/-- Accessor `statusCode()`. -/
def statusCode (r : InvocationResponse) : Int := r.m_statusCode

/-- Accessor `success()`: true if the status code was success. -/
def success (r : InvocationResponse) : Bool := r.m_statusCode == STATUS_CODE_SUCCESS

/-- Accessor `failure()`: true if the status code was not success. -/
def failure (r : InvocationResponse) : Bool := r.m_statusCode != STATUS_CODE_SUCCESS

/-- Accessor `statusString()`. -/
def statusString (r : InvocationResponse) : List Nat := r.m_statusString

/-- Accessor `appStatusCode()`. -/
def appStatusCode (r : InvocationResponse) : Int := r.m_appStatusCode

/-- Accessor `appStatusString()`. -/
def appStatusString (r : InvocationResponse) : List Nat := r.m_appStatusString

/-- Accessor `clusterRoundTripTime()`. -/
def clusterRoundTripTime (r : InvocationResponse) : Int := r.m_clusterRoundTripTime

/-- Accessor `results()`. -/
def results (r : InvocationResponse) : List Table := r.m_results

/-- Modelled from the spec: `Table::toString` lives in the table container
(`Table.h`/`Table.cpp`, not under `src/`); the table renders its opaque byte
slice at the given indentation. -/
def tableToString (t : Table) (indent : String) : String :=
  indent ++ ToString.toString t.bytes ++ "\n"

/-- The result-table portion of `toString()`: one `Result Table ii` header
per table, each followed by the table's own rendering. -/
def renderTables : List Table → Nat → String
  | [], _ => ""
  | t :: ts, ii =>
    "Result Table " ++ ToString.toString ii ++ "\n" ++
      tableToString t "    " ++ renderTables ts (ii + 1)

/-- Render the status or application status string bytes the way
`operator<<` streams the `std::string` member. -/
def bytesAsString (s : List Nat) : String := String.mk (s.map Char.ofNat)

/-- Accessor `toString()`: the string representation of the message,
assembled from the public accessors exactly as the source does. -/
def toString (r : InvocationResponse) : String :=
  "Status: " ++ ToString.toString (statusCode r) ++ ", " ++
    bytesAsString (statusString r) ++ "\n" ++
  "App Status: " ++ ToString.toString (appStatusCode r) ++ ", " ++
    bytesAsString (appStatusString r) ++ "\n" ++
  "Client Data: " ++ ToString.toString (clientData r) ++ "\n" ++
  "Cluster Round Trip Time: " ++ ToString.toString (clusterRoundTripTime r) ++ "\n" ++
  renderTables (results r) 0

end InvocationResponse

/-- The result-table loop of the parsing constructor: for each announced
table, read its `int32` length prefix, assert it is at least 4, narrow the
limit to the end of the table, construct the table from the slice of exactly
those bytes, and restore the limit to `startLimit`. -/
def parseTables : Nat → SharedByteBuffer → Nat → Option (List Table × SharedByteBuffer)
  | 0, buffer, _ => some ([], buffer)
  | n + 1, buffer, startLimit =>
    match buffer.getInt32 with
    | none => none
    | some (tableLength, buffer) =>
      if 4 ≤ tableLength then
        match buffer.setLimit ((buffer.pos : Int) + tableLength) with
        | none => none
        | some buffer =>
          let sliced := buffer.slice
          match sliced.2.setLimit (startLimit : Int) with
          | none => none
          | some buffer =>
            match parseTables n buffer startLimit with
            | none => none
            | some (ts, buffer) => some (Table.mk sliced.1 :: ts, buffer)
      else none

/-- The parsing constructor `InvocationResponse(data, length)`: wraps the
message bytes in a `SharedByteBuffer` and demarshals version, clientData,
presentFields, statusCode, optional status string (bit 5), appStatusCode,
optional appStatusString (bit 7), clusterRoundTripTime, optional skipped
exception block (bit 6), resultCount and the result tables.  A failed
`assert` or a read crossing the limit yields `none`. -/
def parseInvocationResponse (data : List Nat) (length : Nat) : Option InvocationResponse :=
  let buffer : SharedByteBuffer := ⟨data, 0, length⟩
  match buffer.getInt8 with
  | none => none
  | some (version, buffer) =>
    if version = 0 then
      match buffer.getInt64 with
      | none => none
      | some (clientData, buffer) =>
        match buffer.getInt8 with
        | none => none
        | some (presentFields, buffer) =>
          match buffer.getInt8 with
          | none => none
          | some (statusCode, buffer) =>
            match
              (if int8Bit presentFields 5 then buffer.getString
               else some ((([] : List Nat), false), buffer)) with
            | none => none
            | some ((statusString, wasNull), buffer) =>
              match buffer.getInt8 with
              | none => none
              | some (appStatusCode, buffer) =>
                match
                  (if int8Bit presentFields 7 then buffer.getString
                   else some ((([] : List Nat), wasNull), buffer)) with
                | none => none
                | some ((appStatusString, wasNull), buffer) =>
                  if wasNull = true then none
                  else
                    match buffer.getInt32 with
                    | none => none
                    | some (clusterRoundTripTime, buffer) =>
                      match
                        (if int8Bit presentFields 6 then
                          let position : Int := (buffer.pos : Int) + 4
                          match buffer.getInt32 with
                          | none => none
                          | some (skipLength, buffer) =>
                            buffer.setPosition (position + skipLength)
                         else some buffer) with
                      | none => none
                      | some buffer =>
                        match buffer.getInt16 with
                        | none => none
                        | some (resultCountSigned, buffer) =>
                          let resultCount : Nat :=
                            ((resultCountSigned % (2 ^ 64)).toNat)
                          let startLimit := buffer.lim
                          match parseTables resultCount buffer startLimit with
                          | none => none
                          | some (results, _) =>
                            some
                              { m_clientData := clientData
                                m_statusCode := statusCode
                                m_statusString := statusString
                                m_appStatusCode := appStatusCode
                                m_appStatusString := appStatusString
                                m_clusterRoundTripTime := clusterRoundTripTime
                                m_results := results }
    else none

/-- The abstract content of a well-formed invocation-response frame
(§4.2): the optional fields are present exactly when the corresponding
`presentFields` bit is set. -/
structure Frame where
  clientData : Int
  statusCode : Int
  statusString : Option (List Nat)
  appStatusCode : Int
  appStatusString : Option (List Nat)
  clusterRoundTripTime : Int
  exceptionBlock : Option (List Nat)
  tables : List (List Nat)
deriving Repr, DecidableEq

/-- The `presentFields` bitmask byte of a frame: bit 5 = statusString
present, bit 6 = exception-details block present, bit 7 = appStatusString
present (§4.2). -/
def presentByte (f : Frame) : Nat :=
  (if f.statusString.isSome then 32 else 0) +
  (if f.exceptionBlock.isSome then 64 else 0) +
  (if f.appStatusString.isSome then 128 else 0)

/-- Encoding of an optional wire string: absent fields contribute no bytes,
present fields a 4-byte signed length followed by the payload (§4.1). -/
def encOptString : Option (List Nat) → List Nat
  | none => []
  | some s => encInt 4 (s.length : Int) ++ s

/-- Encoding of the optional exception block: an `int32` length followed by
that many bytes (§4.2). -/
def encOptException : Option (List Nat) → List Nat
  | none => []
  | some e => encInt 4 (e.length : Int) ++ e

/-- Encoding of the result tables: each table payload prefixed by its
`int32 tableLength` (§4.2). -/
def encodeTables : List (List Nat) → List Nat
  | [] => []
  | t :: ts => encInt 4 (t.length : Int) ++ t ++ encodeTables ts

/-- The byte sequence of a well-formed invocation-response frame payload in
the wire order of §4.2: version 0, clientData, presentFields, statusCode,
optional status string, appStatusCode, optional appStatusString,
clusterRoundTripTime, optional exception block, resultCount, tables. -/
def encodeFrame (f : Frame) : List Nat :=
  [0] ++ encInt 8 f.clientData ++ [presentByte f] ++ encInt 1 f.statusCode ++
    encOptString f.statusString ++ encInt 1 f.appStatusCode ++
    encOptString f.appStatusString ++ encInt 4 f.clusterRoundTripTime ++
    encOptException f.exceptionBlock ++ encInt 2 (f.tables.length : Int) ++
    encodeTables f.tables

/-- Well-formedness of a frame: every field value fits its machine-integer
wire type, every present string and the exception block fit an `int32`
length, the table count fits a non-negative `int16`, and every table payload
is at least the 4 bytes demanded by the parser's assertion. -/
def WFframe (f : Frame) : Prop :=
  -(2 ^ 63) ≤ f.clientData ∧ f.clientData < 2 ^ 63 ∧
  -128 ≤ f.statusCode ∧ f.statusCode < 128 ∧
  -128 ≤ f.appStatusCode ∧ f.appStatusCode < 128 ∧
  -(2 ^ 31) ≤ f.clusterRoundTripTime ∧ f.clusterRoundTripTime < 2 ^ 31 ∧
  (f.statusString.getD []).length < 2 ^ 31 ∧
  (f.appStatusString.getD []).length < 2 ^ 31 ∧
  (f.exceptionBlock.getD []).length < 2 ^ 31 ∧
  f.tables.length < 2 ^ 15 ∧
  (∀ t ∈ f.tables, 4 ≤ t.length ∧ t.length < 2 ^ 31)

instance (f : Frame) : Decidable (WFframe f) := by
  unfold WFframe; infer_instance

/-- The parsed view a well-formed frame should decode to: absent optional
strings default to the empty string, and each table owns exactly its
payload slice. -/
def responseOfFrame (f : Frame) : InvocationResponse :=
  { m_clientData := f.clientData
    m_statusCode := f.statusCode
    m_statusString := f.statusString.getD []
    m_appStatusCode := f.appStatusCode
    m_appStatusString := f.appStatusString.getD []
    m_clusterRoundTripTime := f.clusterRoundTripTime
    m_results := f.tables.map Table.mk }

/-- Consume `n` raw bytes from the front of a byte stream; `none` models a
stream read that fails for lack of data. -/
def readN (n : Nat) (s : List Nat) : Option (List Nat × List Nat) :=
  if n ≤ s.length then some (s.take n, s.drop n) else none

/-- `InvocationResponse::writeString`: stream the string's size as a raw
native-order `int32` and, when it is nonzero, the string's bytes. -/
def writeString (s : List Nat) : List Nat :=
  natToLE 4 (s.length % 2 ^ 32) ++ (if s.length % 2 ^ 32 ≠ 0 then s else [])

/-- `InvocationResponse::readString`: read a raw `int32` size and, when it is
nonzero, that many bytes; a negative size makes `str.resize` throw, modelled
as `none`. -/
def readString (s : List Nat) : Option (List Nat × List Nat) :=
  match readN 4 s with
  | none => none
  | some (szBytes, s2) =>
    let size : Int := toSignedW 2147483648 4294967296 (leToNat szBytes)
    if size = 0 then some ([], s2)
    else if size < 0 then none
    else
      match readN size.toNat s2 with
      | none => none
      | some (str, s3) => some (str, s3)

/-- Modelled from the spec: `Table::operator>>` lives in the table container
(`Table.h`, not under `src/`); the opaque byte slice is streamed as a raw
`int32` length followed by its bytes. -/
def writeTableStream (t : Table) : List Nat :=
  natToLE 4 (t.bytes.length % 2 ^ 32) ++ t.bytes

/-- Modelled from the spec: `Table(std::istream&)` (`Table.h`, not under
`src/`) reads back the raw `int32` length and that many slice bytes. -/
def readTableStream (s : List Nat) : Option (Table × List Nat) :=
  match readN 4 s with
  | none => none
  | some (szBytes, s2) =>
    let size : Int := toSignedW 2147483648 4294967296 (leToNat szBytes)
    if size < 0 then none
    else
      match readN size.toNat s2 with
      | none => none
      | some (bs, s3) => some (Table.mk bs, s3)

/-- The table loop of `operator>>`: stream each result table in order. -/
def writeTables : List Table → List Nat
  | [] => []
  | t :: ts => writeTableStream t ++ writeTables ts

/-- The table loop of `InvocationResponse(std::istream&)`: read back the
announced number of tables. -/
def readTables : Nat → List Nat → Option (List Table × List Nat)
  | 0, s => some ([], s)
  | n + 1, s =>
    match readTableStream s with
    | none => none
    | some (t, s2) =>
      match readTables n s2 with
      | none => none
      | some (ts, s3) => some (t :: ts, s3)

/-- `InvocationResponse::operator>>`: stream statusCode, statusString,
appStatusCode, appStatusString, clientData, clusterRoundTripTime, the
result count as a raw `size_t`, then the result tables, all in native byte
order. -/
def writeTo (r : InvocationResponse) : List Nat :=
  natToLE 1 ((r.m_statusCode % 256).toNat) ++
  writeString r.m_statusString ++
  natToLE 1 ((r.m_appStatusCode % 256).toNat) ++
  writeString r.m_appStatusString ++
  natToLE 8 ((r.m_clientData % (2 ^ 64)).toNat) ++
  natToLE 4 ((r.m_clusterRoundTripTime % (2 ^ 32)).toNat) ++
  natToLE 8 (r.m_results.length % 2 ^ 64) ++
  writeTables r.m_results

/-- The stream constructor `InvocationResponse(std::istream&)`: read the
fields back in the order `operator>>` wrote them; returns the response and
the unread remainder of the stream. -/
def readFrom (s : List Nat) : Option (InvocationResponse × List Nat) :=
  match readN 1 s with
  | none => none
  | some (scBytes, s) =>
    match readString s with
    | none => none
    | some (statusString, s) =>
      match readN 1 s with
      | none => none
      | some (ascBytes, s) =>
        match readString s with
        | none => none
        | some (appStatusString, s) =>
          match readN 8 s with
          | none => none
          | some (cdBytes, s) =>
            match readN 4 s with
            | none => none
            | some (crttBytes, s) =>
              match readN 8 s with
              | none => none
              | some (szBytes, s) =>
                match readTables (leToNat szBytes) s with
                | none => none
                | some (results, s) =>
                  some
                    ({ m_clientData :=
                         toSignedW 9223372036854775808 18446744073709551616 (leToNat cdBytes)
                       m_statusCode := toSignedW 128 256 (leToNat scBytes)
                       m_statusString := statusString
                       m_appStatusCode := toSignedW 128 256 (leToNat ascBytes)
                       m_appStatusString := appStatusString
                       m_clusterRoundTripTime :=
                         toSignedW 2147483648 4294967296 (leToNat crttBytes)
                       m_results := results }, s)

/-- Modelled from the spec: the `ClientImpl` behind `Client::drain` is not
under `src/`.  §3/§4.5: a usable connection carries its map of outstanding
calls, here the list of their handles. -/
structure ModelConnection where
  pendingCalls : List Nat
deriving Repr, DecidableEq

/-- Modelled from the spec: the dispatcher state visible to the event-loop
driver — the usable connections and the break-loop flag a callback may set. -/
structure ClientState where
  connections : List ModelConnection
  breakLoopFlag : Bool
deriving Repr, DecidableEq

/-- Every connection's pending-call map is empty. -/
def allDrained (s : ClientState) : Bool :=
  s.connections.all fun c => c.pendingCalls.isEmpty

/-- Modelled from the spec (§4.5): `drain` pumps the event loop — each pump
step is an arbitrary state transformation performed by I/O and callbacks —
until every connection's pending-call map is empty or the break-flag fires;
`true` is returned iff drained, `false` iff broken.  `none` means the pump
script ran out while calls were still pending. -/
def drainLoop : List (ClientState → ClientState) → ClientState → Option (Bool × ClientState)
  | steps, s =>
    if allDrained s then some (true, s)
    else if s.breakLoopFlag then some (false, s)
    else
      match steps with
      | [] => none
      | step :: rest => drainLoop rest (step s)

/-- Modelled from the spec (§4.5, §7): `drain` fails with
`NoConnectionsException` when invoked with zero usable connections and
otherwise runs the drain loop. -/
def drain (steps : List (ClientState → ClientState)) (s : ClientState) :
    Except String (Option (Bool × ClientState)) :=
  if s.connections.isEmpty then Except.error "NoConnectionsException"
  else Except.ok (drainLoop steps s)

/-! ### Arithmetic facts about the byte encodings -/

theorem length_natToBE (w n : Nat) : (natToBE w n).length = w := by
  induction w generalizing n with
  | zero => simp [natToBE]
  | succ w ih => simp [natToBE, ih]

theorem beToNat_snoc (xs : List Nat) (b : Nat) :
    beToNat (xs ++ [b]) = beToNat xs * 256 + b := by
  simp [beToNat, List.foldl_append]

theorem beToNat_natToBE (w n : Nat) (h : n < 256 ^ w) :
    beToNat (natToBE w n) = n := by
  induction w generalizing n with
  | zero =>
    have : n = 0 := by simpa using h
    simp [natToBE, beToNat, this]
  | succ w ih =>
    have hdiv : n / 256 < 256 ^ w := by
      apply Nat.div_lt_of_lt_mul
      calc n < 256 ^ (w + 1) := h
        _ = 256 * 256 ^ w := by ring
    rw [natToBE, beToNat_snoc, ih (n / 256) hdiv]
    omega

theorem beToNat_singleton (b : Nat) : beToNat [b] = b := by
  simp [beToNat]

theorem length_natToLE (w n : Nat) : (natToLE w n).length = w := by
  induction w generalizing n with
  | zero => simp [natToLE]
  | succ w ih => simp [natToLE, ih]

theorem leToNat_natToLE (w n : Nat) (h : n < 256 ^ w) :
    leToNat (natToLE w n) = n := by
  induction w generalizing n with
  | zero =>
    have : n = 0 := by simpa using h
    simp [natToLE, leToNat, this]
  | succ w ih =>
    have hdiv : n / 256 < 256 ^ w := by
      apply Nat.div_lt_of_lt_mul
      calc n < 256 ^ (w + 1) := h
        _ = 256 * 256 ^ w := by ring
    rw [natToLE, leToNat, ih (n / 256) hdiv]
    omega

theorem toSignedW_emod (half : Nat) (v : Int)
    (h1 : -(half : Int) ≤ v) (h2 : v < (half : Int)) :
    toSignedW half (2 * half) ((v % (2 * (half : Int))).toNat) = v := by
  have hpos : (0 : Int) < 2 * (half : Int) := by omega
  have hmod : v % (2 * (half : Int)) = v ∨
      v % (2 * (half : Int)) = v + 2 * (half : Int) := by
    rcases le_or_lt 0 v with hv | hv
    · left; exact Int.emod_eq_of_lt hv (by omega)
    · right
      have h3 : (v + 2 * (half : Int)) % (2 * (half : Int)) =
          v % (2 * (half : Int)) := by
        have h5 := Int.add_mul_emod_self_left v (2 * (half : Int)) 1
        rw [mul_one] at h5
        exact h5
      have h4 : (v + 2 * (half : Int)) % (2 * (half : Int)) =
          v + 2 * (half : Int) :=
        Int.emod_eq_of_lt (by omega) (by omega)
      omega
  have hnn : 0 ≤ v % (2 * (half : Int)) := Int.emod_nonneg v (by omega)
  have hcast : ((v % (2 * (half : Int))).toNat : Int) = v % (2 * (half : Int)) :=
    Int.toNat_of_nonneg hnn
  unfold toSignedW
  split <;> rename_i hif <;> rcases hmod with hm | hm <;> push_cast at hif ⊢ <;> omega

theorem toNat_emod_lt (v : Int) (M : Nat) (hM : 0 < M) :
    (v % (M : Int)).toNat < M := by
  have h1 : v % (M : Int) < (M : Int) :=
    Int.emod_lt_of_pos v (by exact_mod_cast hM)
  have h2 : 0 ≤ v % (M : Int) :=
    Int.emod_nonneg v (by positivity)
  omega

theorem toSignedW_of_lt (half full n : Nat) (h : n < half) :
    toSignedW half full n = (n : Int) := by
  simp [toSignedW, h]

theorem toNat_emod_pow_lt (v : Int) (w : Nat) :
    (v % ((256 : Int) ^ w)).toNat < 256 ^ w := by
  have h0 : (0 : Int) < (256 : Int) ^ w := by positivity
  have h1 : v % ((256 : Int) ^ w) < (256 : Int) ^ w := Int.emod_lt_of_pos v h0
  have h2 : 0 ≤ v % ((256 : Int) ^ w) := Int.emod_nonneg v (by positivity)
  have hcast : ((256 : Int) ^ w) = ((256 ^ w : Nat) : Int) := by push_cast; ring
  omega

theorem length_encInt (w : Nat) (v : Int) : (encInt w v).length = w := by
  simp [encInt, length_natToBE]

theorem toSignedW_beToNat_encInt (w half : Nat) (v : Int)
    (hw : (2 * half : Nat) = 256 ^ w) (h1 : -(half : Int) ≤ v) (h2 : v < (half : Int)) :
    toSignedW half (2 * half) (beToNat (encInt w v)) = v := by
  unfold encInt
  rw [beToNat_natToBE _ _ (toNat_emod_pow_lt v w)]
  have hmc : (256 : Int) ^ w = 2 * (half : Int) := by exact_mod_cast hw.symm
  rw [hmc]
  exact toSignedW_emod half v h1 h2

/-! ### Reading back the encoded fields from a buffer -/

theorem readBytes_at (b : SharedByteBuffer) (d₁ c d₂ : List Nat)
    (hdata : b.data = d₁ ++ c ++ d₂) (hpos : b.pos = d₁.length)
    (hlim : b.pos + c.length ≤ b.lim) :
    b.readBytes c.length = some (c, { b with pos := b.pos + c.length }) := by
  unfold SharedByteBuffer.readBytes
  rw [if_pos hlim, hdata, hpos, List.append_assoc, List.drop_left, List.take_left' rfl]

theorem getUInt_at (b : SharedByteBuffer) (d₁ c d₂ : List Nat) (w : Nat)
    (hdata : b.data = d₁ ++ c ++ d₂) (hpos : b.pos = d₁.length)
    (hlen : c.length = w) (hlim : b.pos + w ≤ b.lim) :
    b.getUInt w = some (beToNat c, { b with pos := b.pos + w }) := by
  subst hlen
  unfold SharedByteBuffer.getUInt
  rw [readBytes_at b d₁ c d₂ hdata hpos hlim]

theorem getInt8_at (b : SharedByteBuffer) (d₁ d₂ : List Nat) (v : Int)
    (hdata : b.data = d₁ ++ encInt 1 v ++ d₂) (hpos : b.pos = d₁.length)
    (hlim : b.pos + 1 ≤ b.lim) (h1 : -128 ≤ v) (h2 : v < 128) :
    b.getInt8 = some (v, { b with pos := b.pos + 1 }) := by
  unfold SharedByteBuffer.getInt8
  rw [getUInt_at b d₁ (encInt 1 v) d₂ 1 hdata hpos (length_encInt 1 v) hlim]
  have h := toSignedW_beToNat_encInt 1 128 v (by norm_num) (by exact_mod_cast h1)
    (by exact_mod_cast h2)
  norm_num at h
  simp [h]

theorem getInt16_at (b : SharedByteBuffer) (d₁ d₂ : List Nat) (v : Int)
    (hdata : b.data = d₁ ++ encInt 2 v ++ d₂) (hpos : b.pos = d₁.length)
    (hlim : b.pos + 2 ≤ b.lim) (h1 : -32768 ≤ v) (h2 : v < 32768) :
    b.getInt16 = some (v, { b with pos := b.pos + 2 }) := by
  unfold SharedByteBuffer.getInt16
  rw [getUInt_at b d₁ (encInt 2 v) d₂ 2 hdata hpos (length_encInt 2 v) hlim]
  have h := toSignedW_beToNat_encInt 2 32768 v (by norm_num) (by exact_mod_cast h1)
    (by exact_mod_cast h2)
  norm_num at h
  simp [h]

theorem getInt32_at (b : SharedByteBuffer) (d₁ d₂ : List Nat) (v : Int)
    (hdata : b.data = d₁ ++ encInt 4 v ++ d₂) (hpos : b.pos = d₁.length)
    (hlim : b.pos + 4 ≤ b.lim) (h1 : -2147483648 ≤ v) (h2 : v < 2147483648) :
    b.getInt32 = some (v, { b with pos := b.pos + 4 }) := by
  unfold SharedByteBuffer.getInt32
  rw [getUInt_at b d₁ (encInt 4 v) d₂ 4 hdata hpos (length_encInt 4 v) hlim]
  have h := toSignedW_beToNat_encInt 4 2147483648 v (by norm_num) (by exact_mod_cast h1)
    (by exact_mod_cast h2)
  norm_num at h
  simp [h]

theorem getInt64_at (b : SharedByteBuffer) (d₁ d₂ : List Nat) (v : Int)
    (hdata : b.data = d₁ ++ encInt 8 v ++ d₂) (hpos : b.pos = d₁.length)
    (hlim : b.pos + 8 ≤ b.lim) (h1 : -9223372036854775808 ≤ v)
    (h2 : v < 9223372036854775808) :
    b.getInt64 = some (v, { b with pos := b.pos + 8 }) := by
  unfold SharedByteBuffer.getInt64
  rw [getUInt_at b d₁ (encInt 8 v) d₂ 8 hdata hpos (length_encInt 8 v) hlim]
  have h := toSignedW_beToNat_encInt 8 9223372036854775808 v (by norm_num)
    (by exact_mod_cast h1) (by exact_mod_cast h2)
  norm_num at h
  simp [h]

theorem setPosition_some (b : SharedByteBuffer) (p : Int)
    (h0 : 0 ≤ p) (h1 : p ≤ (b.lim : Int)) :
    b.setPosition p = some { b with pos := p.toNat } := by
  unfold SharedByteBuffer.setPosition
  rw [if_pos ⟨h0, h1⟩]

theorem setLimit_some (b : SharedByteBuffer) (l : Int)
    (h0 : 0 ≤ l) (h1 : l ≤ (b.data.length : Int)) :
    b.setLimit l = some { b with lim := l.toNat } := by
  unfold SharedByteBuffer.setLimit
  rw [if_pos ⟨h0, h1⟩]

theorem getString_at (b : SharedByteBuffer) (d₁ s d₂ : List Nat)
    (hdata : b.data = d₁ ++ encInt 4 (s.length : Int) ++ s ++ d₂)
    (hpos : b.pos = d₁.length)
    (hlim : b.pos + (4 + s.length) ≤ b.lim) (hs : s.length < 2 ^ 31) :
    b.getString = some ((s, false), { b with pos := b.pos + (4 + s.length) }) := by
  have hdata1 : b.data = d₁ ++ encInt 4 (s.length : Int) ++ (s ++ d₂) := by
    rw [hdata, List.append_assoc]
  have h32 := getInt32_at b d₁ (s ++ d₂) (s.length : Int) hdata1 hpos (by omega)
    (by omega) (by omega)
  unfold SharedByteBuffer.getString
  rw [h32]
  have hneg1 : ¬((s.length : Int) = -1) := by omega
  have hneg2 : ¬((s.length : Int) < 0) := by omega
  have htn : ((s.length : Int)).toNat = s.length := by omega
  have hdata2 : ({ b with pos := b.pos + 4 } : SharedByteBuffer).data =
      (d₁ ++ encInt 4 (s.length : Int)) ++ s ++ d₂ := hdata
  have hpos2 : ({ b with pos := b.pos + 4 } : SharedByteBuffer).pos =
      (d₁ ++ encInt 4 (s.length : Int)).length := by
    show b.pos + 4 = _
    simp [hpos, length_encInt]
  have hlim2 : ({ b with pos := b.pos + 4 } : SharedByteBuffer).pos + s.length ≤
      ({ b with pos := b.pos + 4 } : SharedByteBuffer).lim := by
    show b.pos + 4 + s.length ≤ b.lim
    omega
  have hrb := readBytes_at ({ b with pos := b.pos + 4 }) (d₁ ++ encInt 4 (s.length : Int))
    s d₂ hdata2 hpos2 hlim2
  simp only [hneg1, hneg2, if_false, htn, hrb]
  simp [SharedByteBuffer.mk.injEq]
  omega

/-- The raw `presentFields` byte is below 256. -/
theorem presentByte_lt (f : Frame) : presentByte f < 256 := by
  unfold presentByte
  split <;> split <;> split <;> omega

theorem emod_toSignedW_byte (pb : Nat) (h : pb < 256) :
    ((toSignedW 128 256 (pb : Nat)) % 256).toNat = pb := by
  unfold toSignedW
  split <;> omega

/-- A raw byte below 256 is its own one-byte encoding after the signed
reinterpretation the parser performs. -/
theorem encInt1_byte (pb : Nat) (h : pb < 256) :
    encInt 1 (toSignedW 128 256 pb) = [pb] := by
  unfold encInt
  have h256 : ((256 : Int) ^ 1) = 256 := by norm_num
  rw [h256, emod_toSignedW_byte pb h]
  show natToBE 0 (pb / 256) ++ [pb % 256] = [pb]
  simp [natToBE, Nat.mod_eq_of_lt h]

/-- The three `presentFields` bit tests of the parser recover exactly the
presence of the three optional fields of the frame. -/
theorem presentBits (f : Frame) :
    int8Bit (toSignedW 128 256 (presentByte f)) 5 = f.statusString.isSome ∧
    int8Bit (toSignedW 128 256 (presentByte f)) 6 = f.exceptionBlock.isSome ∧
    int8Bit (toSignedW 128 256 (presentByte f)) 7 = f.appStatusString.isSome := by
  have hb : ((toSignedW 128 256 (presentByte f)) % 256).toNat = presentByte f :=
    emod_toSignedW_byte (presentByte f) (presentByte_lt f)
  unfold int8Bit
  rw [hb]
  rcases f with ⟨cd, sc, ss, asc, ass, crtt, eb, ts⟩
  rcases ss <;> rcases ass <;> rcases eb <;> simp [presentByte] <;> decide

theorem length_encOptString (o : Option (List Nat)) :
    (encOptString o).length = if o.isSome then 4 + (o.getD []).length else 0 := by
  cases o <;> simp [encOptString, length_encInt]

theorem length_encOptException (o : Option (List Nat)) :
    (encOptException o).length = if o.isSome then 4 + (o.getD []).length else 0 := by
  cases o <;> simp [encOptException, length_encInt]

/-- Reading an optional string field: when the presence bit is set the
parser consumes the length-prefixed string, otherwise it consumes nothing
and keeps the member's default empty value and the current `wasNull`. -/
theorem optString_at (o : Option (List Nat)) (b : SharedByteBuffer) (d₁ d₂ : List Nat)
    (w : Bool) (hdata : b.data = d₁ ++ encOptString o ++ d₂) (hpos : b.pos = d₁.length)
    (hlim : b.pos + (encOptString o).length ≤ b.lim)
    (hs : (o.getD []).length < 2 ^ 31) :
    (if o.isSome then b.getString else some ((([] : List Nat), w), b)) =
      some ((o.getD [], if o.isSome then false else w),
        { b with pos := b.pos + (encOptString o).length }) := by
  cases o with
  | none =>
    simp [encOptString]
  | some s =>
    simp only [Option.isSome_some, if_pos, Option.getD_some]
    have hdata1 : b.data = d₁ ++ encInt 4 (s.length : Int) ++ s ++ d₂ := by
      rw [hdata]
      simp [encOptString, List.append_assoc]
    have hlim1 : b.pos + (4 + s.length) ≤ b.lim := by
      rw [length_encOptString] at hlim
      simpa using hlim
    rw [getString_at b d₁ s d₂ hdata1 hpos hlim1 (by simpa using hs)]
    simp [length_encOptString]

/-- Skipping the optional exception block: when bit 6 is set the parser
reads the block's `int32` length and jumps the cursor past the block,
otherwise the buffer is untouched. -/
theorem optException_at (o : Option (List Nat)) (b : SharedByteBuffer) (d₁ d₂ : List Nat)
    (hdata : b.data = d₁ ++ encOptException o ++ d₂) (hpos : b.pos = d₁.length)
    (hlim : b.pos + (encOptException o).length ≤ b.lim)
    (he : (o.getD []).length < 2 ^ 31) :
    (if o.isSome then
      match b.getInt32 with
      | none => none
      | some (skipLength, b2) => b2.setPosition ((b.pos : Int) + 4 + skipLength)
     else some b) =
      some { b with pos := b.pos + (encOptException o).length } := by
  cases o with
  | none =>
    simp [encOptException]
  | some e =>
    simp only [Option.isSome_some, if_pos]
    have hdata1 : b.data = d₁ ++ encInt 4 (e.length : Int) ++ (e ++ d₂) := by
      rw [hdata]
      simp [encOptException, List.append_assoc]
    have hlen : (encOptException (some e)).length = 4 + e.length := by
      simp [length_encOptException]
    rw [hlen] at hlim
    have h32 := getInt32_at b d₁ (e ++ d₂) (e.length : Int) hdata1 hpos (by omega)
      (by omega) (by simp at he; omega)
    rw [h32]
    have hsp := setPosition_some ({ b with pos := b.pos + 4 })
      ((b.pos : Int) + 4 + (e.length : Int)) (by omega) (by show _ ≤ ((b.lim : Nat) : Int); omega)
    simp [hsp, hlen, SharedByteBuffer.mk.injEq]
    omega

/-- One iteration of the result-table loop: the `int32` length prefix is
read, the limit is narrowed to the end of the table, the table is built
from the slice of exactly the `tableLength` bytes after the prefix, and the
loop continues past the table with the limit restored to `startLimit`. -/
theorem parseTables_step (n : Nat) (d₁ t d₃ : List Nat) (startLimit : Nat)
    (h4 : 4 ≤ t.length) (h31 : t.length < 2 ^ 31)
    (hsl : startLimit = (d₁ ++ encInt 4 (t.length : Int) ++ t ++ d₃).length) :
    parseTables (n + 1)
        ⟨d₁ ++ encInt 4 (t.length : Int) ++ t ++ d₃, d₁.length, startLimit⟩ startLimit =
      (parseTables n
        ⟨d₁ ++ encInt 4 (t.length : Int) ++ t ++ d₃, d₁.length + 4 + t.length, startLimit⟩
        startLimit).map (fun p => (Table.mk t :: p.1, p.2)) := by
  set d : List Nat := d₁ ++ encInt 4 (t.length : Int) ++ t ++ d₃ with hd
  have hdlen : d.length = d₁.length + 4 + t.length + d₃.length := by
    simp [hd, List.length_append, length_encInt]
    omega
  have hsl2 : startLimit = d₁.length + 4 + t.length + d₃.length := by omega
  have h32 := getInt32_at ⟨d, d₁.length, startLimit⟩ d₁ (t ++ d₃) (t.length : Int)
    (by simp [hd, List.append_assoc]) rfl (by show d₁.length + 4 ≤ startLimit; omega)
    (by omega) (by omega)
  simp only [parseTables]
  rw [h32]
  simp only []
  rw [if_pos (show (4 : Int) ≤ (t.length : Int) by omega)]
  have hset := setLimit_some ⟨d, d₁.length + 4, startLimit⟩
    (((d₁.length + 4 : Nat) : Int) + (t.length : Int)) (by omega)
    (by show _ ≤ ((d.length : Nat) : Int); omega)
  have htn : ((((d₁.length + 4 : Nat) : Int)) + (t.length : Int)).toNat =
      d₁.length + 4 + t.length := by omega
  rw [htn] at hset
  rw [hset]
  simp only []
  have hslice : SharedByteBuffer.slice ⟨d, d₁.length + 4, d₁.length + 4 + t.length⟩ =
      (t, ⟨d, d₁.length + 4 + t.length, d₁.length + 4 + t.length⟩) := by
    unfold SharedByteBuffer.slice
    simp only []
    have hsub : d₁.length + 4 + t.length - (d₁.length + 4) = t.length := by omega
    have hd2 : d = (d₁ ++ encInt 4 (t.length : Int)) ++ (t ++ d₃) := by
      simp [hd, List.append_assoc]
    have hdrop : d.drop (d₁.length + 4) = t ++ d₃ := by
      rw [hd2, List.drop_left' (by simp [length_encInt])]
    rw [hsub, hdrop, List.take_left' rfl]
  rw [hslice]
  simp only []
  have hback := setLimit_some ⟨d, d₁.length + 4 + t.length, d₁.length + 4 + t.length⟩
    ((startLimit : Nat) : Int) (by omega) (by show _ ≤ ((d.length : Nat) : Int); omega)
  have htn2 : (((startLimit : Nat) : Int)).toNat = startLimit := by omega
  rw [htn2] at hback
  rw [hback]
  simp only []
  rcases hrec : parseTables n ⟨d, d₁.length + 4 + t.length, startLimit⟩ startLimit with
    _ | ⟨ts, bfin⟩ <;> simp [hrec]

/-- The result-table loop applied to the encoding of a table list decodes
exactly those tables, finishing with the cursor at the end of the buffer
and the limit restored. -/
theorem parseTables_encodeTables (ts : List (List Nat)) (d₁ : List Nat)
    (hts : ∀ t ∈ ts, 4 ≤ t.length ∧ t.length < 2 ^ 31) :
    parseTables ts.length
        ⟨d₁ ++ encodeTables ts, d₁.length, (d₁ ++ encodeTables ts).length⟩
        (d₁ ++ encodeTables ts).length =
      some (ts.map Table.mk,
        ⟨d₁ ++ encodeTables ts, (d₁ ++ encodeTables ts).length,
          (d₁ ++ encodeTables ts).length⟩) := by
  induction ts generalizing d₁ with
  | nil =>
    simp [parseTables, encodeTables]
  | cons t ts ih =>
    have hassoc : d₁ ++ encodeTables (t :: ts) =
        d₁ ++ encInt 4 (t.length : Int) ++ t ++ encodeTables ts := by
      simp [encodeTables, List.append_assoc]
    rw [hassoc, List.length_cons]
    have hstep := parseTables_step ts.length d₁ t (encodeTables ts)
      (d₁ ++ encInt 4 (t.length : Int) ++ t ++ encodeTables ts).length
      (hts t (by simp)).1 (hts t (by simp)).2 rfl
    rw [hstep]
    have hplen : ((d₁ ++ encInt 4 (t.length : Int)) ++ t).length = d₁.length + 4 + t.length := by
      simp [List.length_append, length_encInt]
      omega
    have ihs := ih ((d₁ ++ encInt 4 (t.length : Int)) ++ t)
      (fun u hu => hts u (by simp [hu]))
    rw [hplen] at ihs
    have hsame : ((d₁ ++ encInt 4 (t.length : Int)) ++ t) ++ encodeTables ts =
        d₁ ++ encInt 4 (t.length : Int) ++ t ++ encodeTables ts := rfl
    rw [hsame] at ihs
    rw [ihs]
    simp

set_option maxHeartbeats 2000000 in
/-- Parsing the encoding of any well-formed frame succeeds and recovers
exactly the frame's fields: the master decode-encode correspondence. -/
theorem parse_encodeFrame (f : Frame) (h : WFframe f) :
    parseInvocationResponse (encodeFrame f) (encodeFrame f).length =
      some (responseOfFrame f) := by
  obtain ⟨ha1, ha2, hb1, hb2, hc1, hc2, hd1, hd2, hss, hass, heb, hnt, hts⟩ := h
  obtain ⟨hbit5, hbit6, hbit7⟩ := presentBits f
  have hpblt := presentByte_lt f
  have hpb1 : -128 ≤ toSignedW 128 256 (presentByte f) := by
    unfold toSignedW; split <;> omega
  have hpb2 : toSignedW 128 256 (presentByte f) < 128 := by
    unfold toSignedW; split <;> omega
  have hC1 : encInt 1 0 = ([0] : List Nat) := by decide
  have hC3 : encInt 1 (toSignedW 128 256 (presentByte f)) = [presentByte f] :=
    encInt1_byte (presentByte f) hpblt
  generalize hdd : encodeFrame f = d
  have hL : d.length = 1 + 8 + 1 + 1 + (encOptString f.statusString).length + 1 +
      (encOptString f.appStatusString).length + 4 +
      (encOptException f.exceptionBlock).length + 2 +
      (encodeTables f.tables).length := by
    rw [← hdd]
    simp [encodeFrame, List.length_append, length_encInt]
    omega
  unfold parseInvocationResponse
  simp only []
  -- step 1: version byte
  have hD1 : d = [] ++ encInt 1 0 ++ (encInt 8 f.clientData ++ [presentByte f] ++
      encInt 1 f.statusCode ++ encOptString f.statusString ++ encInt 1 f.appStatusCode ++
      encOptString f.appStatusString ++ encInt 4 f.clusterRoundTripTime ++
      encOptException f.exceptionBlock ++ encInt 2 (f.tables.length : Int) ++
      encodeTables f.tables) := by
    rw [← hdd]
    simp [encodeFrame, hC1, List.append_assoc]
  have hs1 := getInt8_at ⟨d, 0, d.length⟩ [] (encInt 8 f.clientData ++ [presentByte f] ++
      encInt 1 f.statusCode ++ encOptString f.statusString ++ encInt 1 f.appStatusCode ++
      encOptString f.appStatusString ++ encInt 4 f.clusterRoundTripTime ++
      encOptException f.exceptionBlock ++ encInt 2 (f.tables.length : Int) ++
      encodeTables f.tables) 0 hD1 rfl (by show 0 + 1 ≤ d.length; omega)
    (by norm_num) (by norm_num)
  rw [hs1]
  simp only []
  rw [if_pos trivial]
  -- step 2: clientData
  have hD2 : d = [0] ++ encInt 8 f.clientData ++ ([presentByte f] ++
      encInt 1 f.statusCode ++ encOptString f.statusString ++ encInt 1 f.appStatusCode ++
      encOptString f.appStatusString ++ encInt 4 f.clusterRoundTripTime ++
      encOptException f.exceptionBlock ++ encInt 2 (f.tables.length : Int) ++
      encodeTables f.tables) := by
    rw [← hdd]
    simp [encodeFrame, List.append_assoc]
  have hs2 := getInt64_at ⟨d, 0 + 1, d.length⟩ ([0] : List Nat) ([presentByte f] ++
      encInt 1 f.statusCode ++ encOptString f.statusString ++ encInt 1 f.appStatusCode ++
      encOptString f.appStatusString ++ encInt 4 f.clusterRoundTripTime ++
      encOptException f.exceptionBlock ++ encInt 2 (f.tables.length : Int) ++
      encodeTables f.tables) f.clientData hD2 (by simp)
    (by show 0 + 1 + 8 ≤ d.length; omega) (by omega) (by omega)
  rw [hs2]
  simp only []
  -- step 3: presentFields byte
  have hD3 : d = ([0] ++ encInt 8 f.clientData) ++
      encInt 1 (toSignedW 128 256 (presentByte f)) ++ (encInt 1 f.statusCode ++
      encOptString f.statusString ++ encInt 1 f.appStatusCode ++
      encOptString f.appStatusString ++ encInt 4 f.clusterRoundTripTime ++
      encOptException f.exceptionBlock ++ encInt 2 (f.tables.length : Int) ++
      encodeTables f.tables) := by
    rw [← hdd]
    simp [encodeFrame, hC3, List.append_assoc]
  have hs3 := getInt8_at ⟨d, 0 + 1 + 8, d.length⟩ ([0] ++ encInt 8 f.clientData)
    (encInt 1 f.statusCode ++ encOptString f.statusString ++ encInt 1 f.appStatusCode ++
      encOptString f.appStatusString ++ encInt 4 f.clusterRoundTripTime ++
      encOptException f.exceptionBlock ++ encInt 2 (f.tables.length : Int) ++
      encodeTables f.tables) (toSignedW 128 256 (presentByte f)) hD3
    (by simp [length_encInt]) (by show 0 + 1 + 8 + 1 ≤ d.length; omega) hpb1 hpb2
  rw [hs3]
  simp only []
  -- step 4: statusCode
  have hD4 : d = ([0] ++ encInt 8 f.clientData ++ [presentByte f]) ++
      encInt 1 f.statusCode ++ (encOptString f.statusString ++ encInt 1 f.appStatusCode ++
      encOptString f.appStatusString ++ encInt 4 f.clusterRoundTripTime ++
      encOptException f.exceptionBlock ++ encInt 2 (f.tables.length : Int) ++
      encodeTables f.tables) := by
    rw [← hdd]
    simp [encodeFrame, List.append_assoc]
  have hs4 := getInt8_at ⟨d, 0 + 1 + 8 + 1, d.length⟩
    ([0] ++ encInt 8 f.clientData ++ [presentByte f])
    (encOptString f.statusString ++ encInt 1 f.appStatusCode ++
      encOptString f.appStatusString ++ encInt 4 f.clusterRoundTripTime ++
      encOptException f.exceptionBlock ++ encInt 2 (f.tables.length : Int) ++
      encodeTables f.tables) f.statusCode hD4
    (by simp [length_encInt]) (by show 0 + 1 + 8 + 1 + 1 ≤ d.length; omega) hb1 hb2
  rw [hs4]
  simp only []
  -- step 5: optional status string (bit 5)
  rw [hbit5]
  have hD5 : d = ([0] ++ encInt 8 f.clientData ++ [presentByte f] ++
      encInt 1 f.statusCode) ++ encOptString f.statusString ++
      (encInt 1 f.appStatusCode ++ encOptString f.appStatusString ++
      encInt 4 f.clusterRoundTripTime ++ encOptException f.exceptionBlock ++
      encInt 2 (f.tables.length : Int) ++ encodeTables f.tables) := by
    rw [← hdd]
    simp [encodeFrame, List.append_assoc]
  have hs5 := optString_at f.statusString ⟨d, 0 + 1 + 8 + 1 + 1, d.length⟩
    ([0] ++ encInt 8 f.clientData ++ [presentByte f] ++ encInt 1 f.statusCode)
    (encInt 1 f.appStatusCode ++ encOptString f.appStatusString ++
      encInt 4 f.clusterRoundTripTime ++ encOptException f.exceptionBlock ++
      encInt 2 (f.tables.length : Int) ++ encodeTables f.tables) false hD5
    (by simp [length_encInt])
    (by show 0 + 1 + 8 + 1 + 1 + (encOptString f.statusString).length ≤ d.length; omega)
    hss
  rw [hs5]
  simp only []
  -- step 6: appStatusCode
  have hD6 : d = ([0] ++ encInt 8 f.clientData ++ [presentByte f] ++
      encInt 1 f.statusCode ++ encOptString f.statusString) ++
      encInt 1 f.appStatusCode ++ (encOptString f.appStatusString ++
      encInt 4 f.clusterRoundTripTime ++ encOptException f.exceptionBlock ++
      encInt 2 (f.tables.length : Int) ++ encodeTables f.tables) := by
    rw [← hdd]
    simp [encodeFrame, List.append_assoc]
  have hs6 := getInt8_at
    ⟨d, 0 + 1 + 8 + 1 + 1 + (encOptString f.statusString).length, d.length⟩
    ([0] ++ encInt 8 f.clientData ++ [presentByte f] ++ encInt 1 f.statusCode ++
      encOptString f.statusString)
    (encOptString f.appStatusString ++ encInt 4 f.clusterRoundTripTime ++
      encOptException f.exceptionBlock ++ encInt 2 (f.tables.length : Int) ++
      encodeTables f.tables) f.appStatusCode hD6
    (by simp [length_encInt]; omega)
    (by show 0 + 1 + 8 + 1 + 1 + (encOptString f.statusString).length + 1 ≤ d.length; omega)
    hc1 hc2
  rw [hs6]
  simp only []
  -- step 7: optional app status string (bit 7)
  rw [hbit7]
  have hD7 : d = ([0] ++ encInt 8 f.clientData ++ [presentByte f] ++
      encInt 1 f.statusCode ++ encOptString f.statusString ++
      encInt 1 f.appStatusCode) ++ encOptString f.appStatusString ++
      (encInt 4 f.clusterRoundTripTime ++ encOptException f.exceptionBlock ++
      encInt 2 (f.tables.length : Int) ++ encodeTables f.tables) := by
    rw [← hdd]
    simp [encodeFrame, List.append_assoc]
  have hs7 := optString_at f.appStatusString
    ⟨d, 0 + 1 + 8 + 1 + 1 + (encOptString f.statusString).length + 1, d.length⟩
    ([0] ++ encInt 8 f.clientData ++ [presentByte f] ++ encInt 1 f.statusCode ++
      encOptString f.statusString ++ encInt 1 f.appStatusCode)
    (encInt 4 f.clusterRoundTripTime ++ encOptException f.exceptionBlock ++
      encInt 2 (f.tables.length : Int) ++ encodeTables f.tables)
    (if f.statusString.isSome then false else false) hD7
    (by simp [length_encInt]; omega)
    (by show 0 + 1 + 8 + 1 + 1 + (encOptString f.statusString).length + 1 +
        (encOptString f.appStatusString).length ≤ d.length; omega)
    hass
  rw [hs7]
  simp only []
  -- the wasNull assertion holds
  simp only [ite_self]
  rw [if_neg (by decide : ¬(false = true))]
  -- step 8: clusterRoundTripTime
  have hD8 : d = ([0] ++ encInt 8 f.clientData ++ [presentByte f] ++
      encInt 1 f.statusCode ++ encOptString f.statusString ++
      encInt 1 f.appStatusCode ++ encOptString f.appStatusString) ++
      encInt 4 f.clusterRoundTripTime ++ (encOptException f.exceptionBlock ++
      encInt 2 (f.tables.length : Int) ++ encodeTables f.tables) := by
    rw [← hdd]
    simp [encodeFrame, List.append_assoc]
  have hs8 := getInt32_at
    ⟨d, 0 + 1 + 8 + 1 + 1 + (encOptString f.statusString).length + 1 +
      (encOptString f.appStatusString).length, d.length⟩
    ([0] ++ encInt 8 f.clientData ++ [presentByte f] ++ encInt 1 f.statusCode ++
      encOptString f.statusString ++ encInt 1 f.appStatusCode ++
      encOptString f.appStatusString)
    (encOptException f.exceptionBlock ++ encInt 2 (f.tables.length : Int) ++
      encodeTables f.tables) f.clusterRoundTripTime hD8
    (by simp [length_encInt]; omega)
    (by show 0 + 1 + 8 + 1 + 1 + (encOptString f.statusString).length + 1 +
        (encOptString f.appStatusString).length + 4 ≤ d.length; omega)
    hd1 hd2
  rw [hs8]
  simp only []
  -- step 9: optional exception block (bit 6), skipped
  rw [hbit6]
  have hD9 : d = ([0] ++ encInt 8 f.clientData ++ [presentByte f] ++
      encInt 1 f.statusCode ++ encOptString f.statusString ++
      encInt 1 f.appStatusCode ++ encOptString f.appStatusString ++
      encInt 4 f.clusterRoundTripTime) ++ encOptException f.exceptionBlock ++
      (encInt 2 (f.tables.length : Int) ++ encodeTables f.tables) := by
    rw [← hdd]
    simp [encodeFrame, List.append_assoc]
  have hs9 := optException_at f.exceptionBlock
    ⟨d, 0 + 1 + 8 + 1 + 1 + (encOptString f.statusString).length + 1 +
      (encOptString f.appStatusString).length + 4, d.length⟩
    ([0] ++ encInt 8 f.clientData ++ [presentByte f] ++ encInt 1 f.statusCode ++
      encOptString f.statusString ++ encInt 1 f.appStatusCode ++
      encOptString f.appStatusString ++ encInt 4 f.clusterRoundTripTime)
    (encInt 2 (f.tables.length : Int) ++ encodeTables f.tables) hD9
    (by simp [length_encInt]; omega)
    (by show 0 + 1 + 8 + 1 + 1 + (encOptString f.statusString).length + 1 +
        (encOptString f.appStatusString).length + 4 +
        (encOptException f.exceptionBlock).length ≤ d.length; omega)
    heb
  rw [hs9]
  simp only []
  -- step 10: resultCount
  have hD10 : d = ([0] ++ encInt 8 f.clientData ++ [presentByte f] ++
      encInt 1 f.statusCode ++ encOptString f.statusString ++
      encInt 1 f.appStatusCode ++ encOptString f.appStatusString ++
      encInt 4 f.clusterRoundTripTime ++ encOptException f.exceptionBlock) ++
      encInt 2 (f.tables.length : Int) ++ encodeTables f.tables := by
    rw [← hdd]
    simp [encodeFrame, List.append_assoc]
  have hs10 := getInt16_at
    ⟨d, 0 + 1 + 8 + 1 + 1 + (encOptString f.statusString).length + 1 +
      (encOptString f.appStatusString).length + 4 +
      (encOptException f.exceptionBlock).length, d.length⟩
    ([0] ++ encInt 8 f.clientData ++ [presentByte f] ++ encInt 1 f.statusCode ++
      encOptString f.statusString ++ encInt 1 f.appStatusCode ++
      encOptString f.appStatusString ++ encInt 4 f.clusterRoundTripTime ++
      encOptException f.exceptionBlock)
    (encodeTables f.tables) (f.tables.length : Int) hD10
    (by simp [length_encInt]; omega)
    (by show 0 + 1 + 8 + 1 + 1 + (encOptString f.statusString).length + 1 +
        (encOptString f.appStatusString).length + 4 +
        (encOptException f.exceptionBlock).length + 2 ≤ d.length; omega)
    (by omega) (by omega)
  rw [hs10]
  simp only []
  -- step 11: the result tables
  have hrc : (((f.tables.length : Nat) : Int) % (2 ^ 64)).toNat = f.tables.length := by
    omega
  rw [hrc]
  have hD11 : d = ([0] ++ encInt 8 f.clientData ++ [presentByte f] ++
      encInt 1 f.statusCode ++ encOptString f.statusString ++
      encInt 1 f.appStatusCode ++ encOptString f.appStatusString ++
      encInt 4 f.clusterRoundTripTime ++ encOptException f.exceptionBlock ++
      encInt 2 (f.tables.length : Int)) ++ encodeTables f.tables := by
    rw [← hdd]
    simp [encodeFrame, List.append_assoc]
  have hpos11 : 0 + 1 + 8 + 1 + 1 + (encOptString f.statusString).length + 1 +
      (encOptString f.appStatusString).length + 4 +
      (encOptException f.exceptionBlock).length + 2 =
      ([0] ++ encInt 8 f.clientData ++ [presentByte f] ++ encInt 1 f.statusCode ++
        encOptString f.statusString ++ encInt 1 f.appStatusCode ++
        encOptString f.appStatusString ++ encInt 4 f.clusterRoundTripTime ++
        encOptException f.exceptionBlock ++
        encInt 2 (f.tables.length : Int)).length := by
    simp [length_encInt]
    omega
  rw [hD11, hpos11]
  rw [parseTables_encodeTables f.tables _ hts]
  simp only []
  simp [responseOfFrame]

/-! ### Stream serialization round-trip -/

theorem readN_exact (c r : List Nat) : readN c.length (c ++ r) = some (c, r) := by
  unfold readN
  rw [if_pos (by simp), List.take_left, List.drop_left]

theorem readN_exact' (n : Nat) (c r : List Nat) (h : c.length = n) :
    readN n (c ++ r) = some (c, r) := by
  subst h
  exact readN_exact c r

theorem toSignedW_emod8 (v : Int) (h1 : -128 ≤ v) (h2 : v < 128) :
    toSignedW 128 256 ((v % 256).toNat) = v := by
  have h := toSignedW_emod 128 v (by exact_mod_cast h1) (by exact_mod_cast h2)
  norm_num at h
  exact h

theorem toSignedW_emod32 (v : Int) (h1 : -2147483648 ≤ v) (h2 : v < 2147483648) :
    toSignedW 2147483648 4294967296 ((v % 4294967296).toNat) = v := by
  have h := toSignedW_emod 2147483648 v (by exact_mod_cast h1) (by exact_mod_cast h2)
  norm_num at h
  exact h

theorem toSignedW_emod64 (v : Int) (h1 : -9223372036854775808 ≤ v)
    (h2 : v < 9223372036854775808) :
    toSignedW 9223372036854775808 18446744073709551616 ((v % 18446744073709551616).toNat) = v := by
  have h := toSignedW_emod 9223372036854775808 v (by exact_mod_cast h1) (by exact_mod_cast h2)
  norm_num at h
  exact h

theorem toNat_emod_lit_lt (v : Int) (M : Nat) (hM : 0 < M) :
    (v % (M : Int)).toNat < M := toNat_emod_lt v M hM

theorem readString_writeString (s rest : List Nat) (h : s.length < 2 ^ 31) :
    readString (writeString s ++ rest) = some (s, rest) := by
  unfold writeString readString
  have hmod : s.length % 2 ^ 32 = s.length := Nat.mod_eq_of_lt (by omega)
  rw [hmod]
  have hassoc : natToLE 4 s.length ++ (if s.length ≠ 0 then s else []) ++ rest =
      natToLE 4 s.length ++ ((if s.length ≠ 0 then s else []) ++ rest) := by
    simp [List.append_assoc]
  rw [hassoc, readN_exact' 4 _ _ (length_natToLE 4 s.length)]
  simp only []
  rw [leToNat_natToLE 4 s.length (by omega)]
  rw [toSignedW_of_lt 2147483648 4294967296 s.length (by omega)]
  rcases Nat.eq_zero_or_pos s.length with hz | hp
  · have hsnil : s = [] := List.length_eq_zero.mp hz
    rw [if_pos (by simp [hz]), if_neg (by simp [hz]), hsnil]
    simp
  · rw [if_neg (by omega), if_neg (by omega), if_pos (by omega)]
    have htn : ((s.length : Int)).toNat = s.length := by omega
    rw [htn, readN_exact' s.length s rest rfl]

theorem readTableStream_write (t : Table) (rest : List Nat)
    (h : t.bytes.length < 2 ^ 31) :
    readTableStream (writeTableStream t ++ rest) = some (t, rest) := by
  unfold writeTableStream readTableStream
  have hmod : t.bytes.length % 2 ^ 32 = t.bytes.length := Nat.mod_eq_of_lt (by omega)
  rw [hmod, List.append_assoc, readN_exact' 4 _ _ (length_natToLE 4 t.bytes.length)]
  simp only []
  rw [leToNat_natToLE 4 t.bytes.length (by omega)]
  rw [toSignedW_of_lt 2147483648 4294967296 t.bytes.length (by omega)]
  rw [if_neg (by omega)]
  have htn : ((t.bytes.length : Int)).toNat = t.bytes.length := by omega
  rw [htn, readN_exact' t.bytes.length t.bytes rest rfl]

theorem readTables_writeTables (ts : List Table) (rest : List Nat)
    (h : ∀ t ∈ ts, t.bytes.length < 2 ^ 31) :
    readTables ts.length (writeTables ts ++ rest) = some (ts, rest) := by
  induction ts generalizing rest with
  | nil => simp [writeTables, readTables]
  | cons t ts ih =>
    rw [List.length_cons]
    unfold writeTables readTables
    rw [List.append_assoc, readTableStream_write t (writeTables ts ++ rest)
      (h t (by simp))]
    simp only []
    rw [ih rest (fun u hu => h u (by simp [hu]))]

/-- Round trip of the native-order stream serialization: the stream
constructor recovers from `operator>>`'s bytes exactly the response that was
written, consuming the whole stream. -/
theorem readFrom_writeTo (r : InvocationResponse)
    (hsc1 : -128 ≤ r.m_statusCode) (hsc2 : r.m_statusCode < 128)
    (hac1 : -128 ≤ r.m_appStatusCode) (hac2 : r.m_appStatusCode < 128)
    (hcd1 : -(2 ^ 63) ≤ r.m_clientData) (hcd2 : r.m_clientData < 2 ^ 63)
    (hrt1 : -(2 ^ 31) ≤ r.m_clusterRoundTripTime)
    (hrt2 : r.m_clusterRoundTripTime < 2 ^ 31)
    (hss : r.m_statusString.length < 2 ^ 31)
    (hass : r.m_appStatusString.length < 2 ^ 31)
    (hres : r.m_results.length < 2 ^ 64)
    (htb : ∀ t ∈ r.m_results, t.bytes.length < 2 ^ 31) :
    readFrom (writeTo r) = some (r, []) := by
  have hW : writeTo r = natToLE 1 ((r.m_statusCode % 256).toNat) ++
      (writeString r.m_statusString ++ (natToLE 1 ((r.m_appStatusCode % 256).toNat) ++
      (writeString r.m_appStatusString ++ (natToLE 8 ((r.m_clientData % (2 ^ 64)).toNat) ++
      (natToLE 4 ((r.m_clusterRoundTripTime % (2 ^ 32)).toNat) ++
      (natToLE 8 (r.m_results.length % 2 ^ 64) ++ writeTables r.m_results)))))) := by
    simp [writeTo, List.append_assoc]
  rw [hW]
  unfold readFrom
  rw [readN_exact' 1 _ _ (length_natToLE 1 _)]
  simp only []
  rw [readString_writeString r.m_statusString _ hss]
  simp only []
  rw [readN_exact' 1 _ _ (length_natToLE 1 _)]
  simp only []
  rw [readString_writeString r.m_appStatusString _ hass]
  simp only []
  rw [readN_exact' 8 _ _ (length_natToLE 8 _)]
  simp only []
  rw [readN_exact' 4 _ _ (length_natToLE 4 _)]
  simp only []
  rw [readN_exact' 8 _ _ (length_natToLE 8 _)]
  simp only []
  have hcnt : leToNat (natToLE 8 (r.m_results.length % 2 ^ 64)) = r.m_results.length := by
    rw [leToNat_natToLE 8 _ (by omega)]
    omega
  rw [hcnt]
  rw [show writeTables r.m_results = writeTables r.m_results ++ [] from
    (List.append_nil _).symm]
  rw [readTables_writeTables r.m_results [] htb]
  simp only []
  have hv1 : leToNat (natToLE 1 ((r.m_statusCode % 256).toNat)) =
      (r.m_statusCode % 256).toNat := by
    rw [leToNat_natToLE 1 _ (by omega)]
  have hv2 : leToNat (natToLE 1 ((r.m_appStatusCode % 256).toNat)) =
      (r.m_appStatusCode % 256).toNat := by
    rw [leToNat_natToLE 1 _ (by omega)]
  have hv3 : leToNat (natToLE 8 ((r.m_clientData % (2 ^ 64)).toNat)) =
      (r.m_clientData % (2 ^ 64)).toNat := by
    rw [leToNat_natToLE 8 _ (by omega)]
  have hv4 : leToNat (natToLE 4 ((r.m_clusterRoundTripTime % (2 ^ 32)).toNat)) =
      (r.m_clusterRoundTripTime % (2 ^ 32)).toNat := by
    rw [leToNat_natToLE 4 _ (by omega)]
  rw [hv1, hv2, hv3, hv4]
  rw [toSignedW_emod8 r.m_statusCode hsc1 hsc2]
  rw [toSignedW_emod8 r.m_appStatusCode hac1 hac2]
  rw [show ((2 : Int) ^ 64) = 18446744073709551616 by norm_num,
    toSignedW_emod64 r.m_clientData (by omega) (by omega)]
  rw [show ((2 : Int) ^ 32) = 4294967296 by norm_num,
    toSignedW_emod32 r.m_clusterRoundTripTime (by omega) (by omega)]

/-! ### The drain loop -/

theorem drainLoop_spec (steps : List (ClientState → ClientState)) (s : ClientState)
    (b : Bool) (s2 : ClientState) (h : drainLoop steps s = some (b, s2)) :
    (b = true ↔ allDrained s2 = true) ∧
    (b = false ↔ allDrained s2 = false ∧ s2.breakLoopFlag = true) := by
  induction steps generalizing s with
  | nil =>
    unfold drainLoop at h
    split at h
    · rename_i hall
      simp only [Option.some.injEq, Prod.mk.injEq] at h
      obtain ⟨hb, hs2⟩ := h
      subst hb
      subst hs2
      simp [hall]
    · split at h
      · rename_i hall hbr
        simp only [Option.some.injEq, Prod.mk.injEq] at h
        obtain ⟨hb, hs2⟩ := h
        subst hb
        subst hs2
        simp_all
      · simp at h
  | cons step rest ih =>
    unfold drainLoop at h
    split at h
    · rename_i hall
      simp only [Option.some.injEq, Prod.mk.injEq] at h
      obtain ⟨hb, hs2⟩ := h
      subst hb
      subst hs2
      simp [hall]
    · split at h
      · rename_i hall hbr
        simp only [Option.some.injEq, Prod.mk.injEq] at h
        obtain ⟨hb, hs2⟩ := h
        subst hb
        subst hs2
        simp_all
      · exact ih (step s) h

/-- A frame whose version byte is not 0 fails the parser's first assertion. -/
theorem parse_bad_version (l : List Nat) :
    parseInvocationResponse (1 :: l) (1 :: l).length = none := by
  have hE : encInt 1 1 = [1] := by decide
  have hg := getInt8_at ⟨1 :: l, 0, (1 :: l).length⟩ [] l 1
    (by rw [hE]; simp) rfl (by simp) (by norm_num) (by norm_num)
  unfold parseInvocationResponse
  simp only []
  rw [hg]
  simp

namespace InvocationResponse

/-- The `const` accessor call `clientData()`, modelled as a state function:
the observed value together with the object after the call; the body only
reads the member. -/
def clientDataCall (r : InvocationResponse) : Int × InvocationResponse :=
  (clientData r, r)

/-- The `const` accessor call `statusCode()` as a state function. -/
def statusCodeCall (r : InvocationResponse) : Int × InvocationResponse :=
  (statusCode r, r)

/-- The `const` accessor call `success()` as a state function. -/
def successCall (r : InvocationResponse) : Bool × InvocationResponse :=
  (success r, r)

/-- The `const` accessor call `failure()` as a state function. -/
def failureCall (r : InvocationResponse) : Bool × InvocationResponse :=
  (failure r, r)

/-- The `const` accessor call `statusString()` as a state function. -/
def statusStringCall (r : InvocationResponse) : List Nat × InvocationResponse :=
  (statusString r, r)

/-- The `const` accessor call `appStatusCode()` as a state function. -/
def appStatusCodeCall (r : InvocationResponse) : Int × InvocationResponse :=
  (appStatusCode r, r)

/-- The `const` accessor call `appStatusString()` as a state function. -/
def appStatusStringCall (r : InvocationResponse) : List Nat × InvocationResponse :=
  (appStatusString r, r)

/-- The `const` accessor call `clusterRoundTripTime()` as a state function. -/
def clusterRoundTripTimeCall (r : InvocationResponse) : Int × InvocationResponse :=
  (clusterRoundTripTime r, r)

/-- The `const` accessor call `results()` as a state function. -/
def resultsCall (r : InvocationResponse) : List Table × InvocationResponse :=
  (results r, r)

/-- The `const` accessor call `toString()` as a state function. -/
def toStringCall (r : InvocationResponse) : String × InvocationResponse :=
  (toString r, r)

end InvocationResponse

/-! ### Concrete wire frames and responses used as witnesses -/

/-- A frame exercising every optional field: both strings present, an
exception block, and two result tables. -/
def wireFrameA : Frame :=
  { clientData := 77
    statusCode := -2
    statusString := some (strBytes "constraint")
    appStatusCode := 5
    appStatusString := some (strBytes "app")
    clusterRoundTripTime := 1234
    exceptionBlock := some [9, 9, 9]
    tables := [[1, 2, 3, 4, 5], [6, 7, 8, 9]] }

/-- The E3 scenario frame: `statusCode = -2`, statusString `constraint`,
zero result tables. -/
def wireFrameE3 : Frame :=
  { clientData := 3
    statusCode := -2
    statusString := some (strBytes "constraint")
    appStatusCode := -128
    appStatusString := none
    clusterRoundTripTime := 0
    exceptionBlock := none
    tables := [] }

/-- The E1 scenario frame: `statusCode = 1`, no status string, zero
result tables. -/
def wireFrameE1 : Frame :=
  { clientData := 1
    statusCode := 1
    statusString := none
    appStatusCode := -128
    appStatusString := none
    clusterRoundTripTime := 0
    exceptionBlock := none
    tables := [] }

/-- A table payload used to witness the per-table slice behaviour. -/
def tListW : List Nat := [1, 2, 3, 4]

/-- A concrete response used to witness the stream round trip. -/
def sampleResponse : InvocationResponse :=
  { m_clientData := 42
    m_statusCode := 1
    m_statusString := strBytes "ok"
    m_appStatusCode := -128
    m_appStatusString := []
    m_clusterRoundTripTime := 7
    m_results := [Table.mk [1, 2, 3, 4]] }

/-- A pump step that delivers the lone pending response. -/
def drainStepW : ClientState → ClientState := fun _ => ⟨[⟨[]⟩], false⟩

/-- One usable connection with one outstanding call. -/
def drainS0 : ClientState := ⟨[⟨[5]⟩], false⟩

/-- The drained final state of the witness run. -/
def drainS1 : ClientState := ⟨[⟨[]⟩], false⟩

/-! ### The claims -/

/-- C1: the parsing constructor reads the fields of a well-formed frame in
exactly the wire order version, clientData, presentFields, statusCode,
optional statusString (bit 5), appStatusCode, optional appStatusString
(bit 7), clusterRoundTripTime, skipped exception block (bit 6),
resultCount and tables, and the stored clientData, statusCode,
appStatusCode and clusterRoundTripTime equal the big-endian values in the
frame. -/
theorem claim_C1_parse_wire_order (f : Frame) (h : WFframe f) :
    parseInvocationResponse (encodeFrame f) (encodeFrame f).length =
      some { m_clientData := f.clientData
             m_statusCode := f.statusCode
             m_statusString := f.statusString.getD []
             m_appStatusCode := f.appStatusCode
             m_appStatusString := f.appStatusString.getD []
             m_clusterRoundTripTime := f.clusterRoundTripTime
             m_results := f.tables.map Table.mk } :=
  parse_encodeFrame f h

/-- Witness for C1 on a concrete frame exercising every optional field. -/
theorem claim_C1_witness :
    WFframe wireFrameA ∧
    parseInvocationResponse (encodeFrame wireFrameA) (encodeFrame wireFrameA).length =
      some { m_clientData := wireFrameA.clientData
             m_statusCode := wireFrameA.statusCode
             m_statusString := wireFrameA.statusString.getD []
             m_appStatusCode := wireFrameA.appStatusCode
             m_appStatusString := wireFrameA.appStatusString.getD []
             m_clusterRoundTripTime := wireFrameA.clusterRoundTripTime
             m_results := wireFrameA.tables.map Table.mk } :=
  ⟨by decide, claim_C1_parse_wire_order wireFrameA (by decide)⟩

/-- C2: a well-formed frame with `resultCount` announced tables parses to
exactly that many result tables, each table owning exactly the
`tableLength` bytes after its length prefix; and one iteration of the
table loop consumes the prefix plus exactly `tableLength` sliced bytes and
recurses with the buffer limit restored to its original value. -/
theorem claim_C2_result_tables (f : Frame) (h : WFframe f) (n : Nat)
    (d₁ t d₃ : List Nat) (h4 : 4 ≤ t.length) (h31 : t.length < 2 ^ 31) :
    ((parseInvocationResponse (encodeFrame f) (encodeFrame f).length).map
        (fun r => (InvocationResponse.results r).length) = some f.tables.length ∧
      (parseInvocationResponse (encodeFrame f) (encodeFrame f).length).map
        (fun r => (InvocationResponse.results r).map Table.bytes) = some f.tables) ∧
    parseTables (n + 1)
        ⟨d₁ ++ encInt 4 (t.length : Int) ++ t ++ d₃, d₁.length,
          (d₁ ++ encInt 4 (t.length : Int) ++ t ++ d₃).length⟩
        (d₁ ++ encInt 4 (t.length : Int) ++ t ++ d₃).length =
      (parseTables n
        ⟨d₁ ++ encInt 4 (t.length : Int) ++ t ++ d₃, d₁.length + 4 + t.length,
          (d₁ ++ encInt 4 (t.length : Int) ++ t ++ d₃).length⟩
        (d₁ ++ encInt 4 (t.length : Int) ++ t ++ d₃).length).map
        (fun p => (Table.mk t :: p.1, p.2)) := by
  refine ⟨⟨?_, ?_⟩, parseTables_step n d₁ t d₃ _ h4 h31 rfl⟩
  · rw [parse_encodeFrame f h]
    simp [responseOfFrame, InvocationResponse.results]
  · rw [parse_encodeFrame f h]
    simp [responseOfFrame, InvocationResponse.results, List.map_map]
    have hcomp : Table.bytes ∘ Table.mk = id := rfl
    rw [hcomp, List.map_id]

/-- Witness for C2 at a concrete frame and a concrete table slice. -/
theorem claim_C2_witness :
    ((parseInvocationResponse (encodeFrame wireFrameA) (encodeFrame wireFrameA).length).map
        (fun r => (InvocationResponse.results r).length) = some wireFrameA.tables.length ∧
      (parseInvocationResponse (encodeFrame wireFrameA) (encodeFrame wireFrameA).length).map
        (fun r => (InvocationResponse.results r).map Table.bytes) = some wireFrameA.tables) ∧
    parseTables (0 + 1)
        ⟨[] ++ encInt 4 (tListW.length : Int) ++ tListW ++ [], ([] : List Nat).length,
          ([] ++ encInt 4 (tListW.length : Int) ++ tListW ++ []).length⟩
        ([] ++ encInt 4 (tListW.length : Int) ++ tListW ++ []).length =
      (parseTables 0
        ⟨[] ++ encInt 4 (tListW.length : Int) ++ tListW ++ [],
          ([] : List Nat).length + 4 + tListW.length,
          ([] ++ encInt 4 (tListW.length : Int) ++ tListW ++ []).length⟩
        ([] ++ encInt 4 (tListW.length : Int) ++ tListW ++ []).length).map
        (fun p => (Table.mk tListW :: p.1, p.2)) :=
  claim_C2_result_tables wireFrameA (by decide) 0 [] tListW [] (by decide) (by decide)

/-- C3: the default constructor yields `CONNECTION_LOST` (-4), application
status code -128, zero client data and round-trip time, the non-empty
default status string, an empty appStatusString and no result tables. -/
theorem claim_C3_default_response :
    InvocationResponse.statusCode InvocationResponse.mkDefault = -4 ∧
    InvocationResponse.statusCode InvocationResponse.mkDefault = STATUS_CODE_CONNECTION_LOST ∧
    InvocationResponse.appStatusCode InvocationResponse.mkDefault = -128 ∧
    InvocationResponse.clientData InvocationResponse.mkDefault = 0 ∧
    InvocationResponse.clusterRoundTripTime InvocationResponse.mkDefault = 0 ∧
    InvocationResponse.statusString InvocationResponse.mkDefault ≠ [] ∧
    InvocationResponse.statusString InvocationResponse.mkDefault =
      strBytes "Connection to the database was lost" ∧
    InvocationResponse.appStatusString InvocationResponse.mkDefault = [] ∧
    InvocationResponse.results InvocationResponse.mkDefault = [] := by
  refine ⟨rfl, rfl, rfl, rfl, rfl, ?_, rfl, rfl, rfl⟩
  decide

/-- C4: the five status-code constants carry exactly the numeric values the
wire protocol assigns. -/
theorem claim_C4_status_code_values :
    STATUS_CODE_SUCCESS = 1 ∧ STATUS_CODE_USER_ABORT = -1 ∧
    STATUS_CODE_GRACEFUL_FAILURE = -2 ∧ STATUS_CODE_UNEXPECTED_FAILURE = -3 ∧
    STATUS_CODE_CONNECTION_LOST = -4 :=
  ⟨rfl, rfl, rfl, rfl, rfl⟩

/-- C5: `success()` holds iff the status code is 1 and `failure()` is its
negation; the E3 frame (statusCode -2, statusString `constraint`, no
tables) parses to a failing response with that status string and no
results, and the E1 frame (statusCode 1, no status string, no tables)
parses to a successful response with empty status string and no results. -/
theorem claim_C5_success_failure :
    (∀ r : InvocationResponse,
      (InvocationResponse.success r = true ↔ InvocationResponse.statusCode r = 1) ∧
      InvocationResponse.failure r = !(InvocationResponse.success r)) ∧
    (parseInvocationResponse (encodeFrame wireFrameE3) (encodeFrame wireFrameE3).length =
        some (responseOfFrame wireFrameE3) ∧
      InvocationResponse.failure (responseOfFrame wireFrameE3) = true ∧
      InvocationResponse.statusString (responseOfFrame wireFrameE3) = strBytes "constraint" ∧
      InvocationResponse.results (responseOfFrame wireFrameE3) = []) ∧
    (parseInvocationResponse (encodeFrame wireFrameE1) (encodeFrame wireFrameE1).length =
        some (responseOfFrame wireFrameE1) ∧
      InvocationResponse.success (responseOfFrame wireFrameE1) = true ∧
      InvocationResponse.statusString (responseOfFrame wireFrameE1) = [] ∧
      InvocationResponse.results (responseOfFrame wireFrameE1) = []) := by
  refine ⟨fun r => ⟨?_, rfl⟩, by decide, by decide⟩
  simp [InvocationResponse.success, InvocationResponse.statusCode, STATUS_CODE_SUCCESS]

/-- C6: under the well-formedness preconditions (version 0, present strings
non-null, table lengths at least 4, non-negative result count, all
announced bytes present) the parsing constructor is total: every assertion
holds and no read crosses the limit; a frame with version byte 1 instead
fails the version assertion. -/
theorem claim_C6_parse_totality (f : Frame) (h : WFframe f) :
    (parseInvocationResponse (encodeFrame f) (encodeFrame f).length).isSome = true ∧
    parseInvocationResponse (1 :: encodeFrame f) (1 :: encodeFrame f).length = none :=
  ⟨by rw [parse_encodeFrame f h]; rfl, parse_bad_version (encodeFrame f)⟩

/-- Witness for C6 at a concrete frame. -/
theorem claim_C6_witness :
    (parseInvocationResponse (encodeFrame wireFrameA) (encodeFrame wireFrameA).length).isSome
        = true ∧
    parseInvocationResponse (1 :: encodeFrame wireFrameA)
        (1 :: encodeFrame wireFrameA).length = none :=
  claim_C6_parse_totality wireFrameA (by decide)

/-- C7: every public accessor is a pure observation: the object after the
call equals the object before it, and a repeated call returns the same
value. -/
theorem claim_C7_accessors_pure (r : InvocationResponse) :
    ((InvocationResponse.clientDataCall r).2 = r ∧
      (InvocationResponse.clientDataCall ((InvocationResponse.clientDataCall r).2)).1 =
        (InvocationResponse.clientDataCall r).1) ∧
    ((InvocationResponse.statusCodeCall r).2 = r ∧
      (InvocationResponse.statusCodeCall ((InvocationResponse.statusCodeCall r).2)).1 =
        (InvocationResponse.statusCodeCall r).1) ∧
    ((InvocationResponse.successCall r).2 = r ∧
      (InvocationResponse.successCall ((InvocationResponse.successCall r).2)).1 =
        (InvocationResponse.successCall r).1) ∧
    ((InvocationResponse.failureCall r).2 = r ∧
      (InvocationResponse.failureCall ((InvocationResponse.failureCall r).2)).1 =
        (InvocationResponse.failureCall r).1) ∧
    ((InvocationResponse.statusStringCall r).2 = r ∧
      (InvocationResponse.statusStringCall ((InvocationResponse.statusStringCall r).2)).1 =
        (InvocationResponse.statusStringCall r).1) ∧
    ((InvocationResponse.appStatusCodeCall r).2 = r ∧
      (InvocationResponse.appStatusCodeCall ((InvocationResponse.appStatusCodeCall r).2)).1 =
        (InvocationResponse.appStatusCodeCall r).1) ∧
    ((InvocationResponse.appStatusStringCall r).2 = r ∧
      (InvocationResponse.appStatusStringCall
          ((InvocationResponse.appStatusStringCall r).2)).1 =
        (InvocationResponse.appStatusStringCall r).1) ∧
    ((InvocationResponse.clusterRoundTripTimeCall r).2 = r ∧
      (InvocationResponse.clusterRoundTripTimeCall
          ((InvocationResponse.clusterRoundTripTimeCall r).2)).1 =
        (InvocationResponse.clusterRoundTripTimeCall r).1) ∧
    ((InvocationResponse.resultsCall r).2 = r ∧
      (InvocationResponse.resultsCall ((InvocationResponse.resultsCall r).2)).1 =
        (InvocationResponse.resultsCall r).1) ∧
    ((InvocationResponse.toStringCall r).2 = r ∧
      (InvocationResponse.toStringCall ((InvocationResponse.toStringCall r).2)).1 =
        (InvocationResponse.toStringCall r).1) :=
  ⟨⟨rfl, rfl⟩, ⟨rfl, rfl⟩, ⟨rfl, rfl⟩, ⟨rfl, rfl⟩, ⟨rfl, rfl⟩, ⟨rfl, rfl⟩, ⟨rfl, rfl⟩,
    ⟨rfl, rfl⟩, ⟨rfl, rfl⟩, ⟨rfl, rfl⟩⟩

/-- C8: `drain` fails with `NoConnectionsException` exactly when there are
zero usable connections, otherwise it pumps the event loop until every
connection's pending-call map is empty or the break-flag fires, returning
`true` iff all pending responses were received and `false` iff a callback
broke the loop first. -/
theorem claim_C8_drain (steps : List (ClientState → ClientState)) (s : ClientState) :
    (s.connections = [] ↔ drain steps s = Except.error "NoConnectionsException") ∧
    (s.connections ≠ [] → drain steps s = Except.ok (drainLoop steps s)) ∧
    ∀ b s2, drainLoop steps s = some (b, s2) →
      ((b = true ↔ allDrained s2 = true) ∧
        (b = false ↔ allDrained s2 = false ∧ s2.breakLoopFlag = true)) := by
  refine ⟨?_, ?_, fun b s2 h => drainLoop_spec steps s b s2 h⟩
  · constructor
    · intro he
      unfold drain
      rw [if_pos (by simp [he])]
    · intro he
      unfold drain at he
      by_cases hc : s.connections.isEmpty
      · exact List.isEmpty_iff.mp hc
      · rw [if_neg hc] at he
        simp at he
  · intro hne
    unfold drain
    rw [if_neg (by simp [hne])]

/-- Witness for C8: one connection with one pending call, drained by a
single pump step. -/
theorem claim_C8_witness :
    (true = true ↔ allDrained drainS1 = true) ∧
    (true = false ↔ allDrained drainS1 = false ∧ drainS1.breakLoopFlag = true) :=
  (claim_C8_drain [drainStepW] drainS0).2.2 true drainS1 (by rfl)

/-- C9: the stream serialization round-trips: reading back the bytes
written by `operator>>` recovers a response whose statusCode,
statusString, appStatusCode, appStatusString, clientData,
clusterRoundTripTime and result count equal those of the original. -/
theorem claim_C9_stream_round_trip (r : InvocationResponse)
    (hsc1 : -128 ≤ r.m_statusCode) (hsc2 : r.m_statusCode < 128)
    (hac1 : -128 ≤ r.m_appStatusCode) (hac2 : r.m_appStatusCode < 128)
    (hcd1 : -(2 ^ 63) ≤ r.m_clientData) (hcd2 : r.m_clientData < 2 ^ 63)
    (hrt1 : -(2 ^ 31) ≤ r.m_clusterRoundTripTime)
    (hrt2 : r.m_clusterRoundTripTime < 2 ^ 31)
    (hss : r.m_statusString.length < 2 ^ 31)
    (hass : r.m_appStatusString.length < 2 ^ 31)
    (hres : r.m_results.length < 2 ^ 64)
    (htb : ∀ t ∈ r.m_results, t.bytes.length < 2 ^ 31) :
    ∃ r2, readFrom (writeTo r) = some (r2, []) ∧
      InvocationResponse.statusCode r2 = InvocationResponse.statusCode r ∧
      InvocationResponse.statusString r2 = InvocationResponse.statusString r ∧
      InvocationResponse.appStatusCode r2 = InvocationResponse.appStatusCode r ∧
      InvocationResponse.appStatusString r2 = InvocationResponse.appStatusString r ∧
      InvocationResponse.clientData r2 = InvocationResponse.clientData r ∧
      InvocationResponse.clusterRoundTripTime r2 =
        InvocationResponse.clusterRoundTripTime r ∧
      (InvocationResponse.results r2).length = (InvocationResponse.results r).length :=
  ⟨r, readFrom_writeTo r hsc1 hsc2 hac1 hac2 hcd1 hcd2 hrt1 hrt2 hss hass hres htb,
    rfl, rfl, rfl, rfl, rfl, rfl, rfl⟩

/-- Witness for C9 on a concrete response with a status string and a table. -/
theorem claim_C9_witness :
    ∃ r2, readFrom (writeTo sampleResponse) = some (r2, []) ∧
      InvocationResponse.statusCode r2 = InvocationResponse.statusCode sampleResponse ∧
      InvocationResponse.statusString r2 = InvocationResponse.statusString sampleResponse ∧
      InvocationResponse.appStatusCode r2 =
        InvocationResponse.appStatusCode sampleResponse ∧
      InvocationResponse.appStatusString r2 =
        InvocationResponse.appStatusString sampleResponse ∧
      InvocationResponse.clientData r2 = InvocationResponse.clientData sampleResponse ∧
      InvocationResponse.clusterRoundTripTime r2 =
        InvocationResponse.clusterRoundTripTime sampleResponse ∧
      (InvocationResponse.results r2).length =
        (InvocationResponse.results sampleResponse).length :=
  claim_C9_stream_round_trip sampleResponse (by decide) (by decide) (by decide)
    (by decide) (by decide) (by decide) (by decide) (by decide) (by decide)
    (by decide) (by decide) (by decide)

/-- C10: when bit 5 of `presentFields` is clear the parsed response's
statusString is the empty string, and when bit 7 is clear its
appStatusString is the empty string. -/
theorem claim_C10_absent_strings_empty (f : Frame) (h : WFframe f) :
    (int8Bit (toSignedW 128 256 (presentByte f)) 5 = false →
      (parseInvocationResponse (encodeFrame f) (encodeFrame f).length).map
        InvocationResponse.statusString = some []) ∧
    (int8Bit (toSignedW 128 256 (presentByte f)) 7 = false →
      (parseInvocationResponse (encodeFrame f) (encodeFrame f).length).map
        InvocationResponse.appStatusString = some []) := by
  obtain ⟨hb5, hb6, hb7⟩ := presentBits f
  constructor
  · intro hbit
    rw [hb5] at hbit
    have hnone : f.statusString = none := by
      cases hsx : f.statusString <;> simp [hsx] at hbit ⊢
    rw [parse_encodeFrame f h]
    simp [responseOfFrame, InvocationResponse.statusString, hnone]
  · intro hbit
    rw [hb7] at hbit
    have hnone : f.appStatusString = none := by
      cases hsx : f.appStatusString <;> simp [hsx] at hbit ⊢
    rw [parse_encodeFrame f h]
    simp [responseOfFrame, InvocationResponse.appStatusString, hnone]

/-- Witness for C10 on a concrete frame with both presence bits clear. -/
theorem claim_C10_witness :
    (parseInvocationResponse (encodeFrame wireFrameE1) (encodeFrame wireFrameE1).length).map
        InvocationResponse.statusString = some [] ∧
    (parseInvocationResponse (encodeFrame wireFrameE1) (encodeFrame wireFrameE1).length).map
        InvocationResponse.appStatusString = some [] :=
  ⟨(claim_C10_absent_strings_empty wireFrameE1 (by decide)).1 (by decide),
    (claim_C10_absent_strings_empty wireFrameE1 (by decide)).2 (by decide)⟩

end voltdb
